import Mathlib

/-!
Shallow embedding of the garmin-ipc tracking forwarder
(`src/packages/ipc/tracking-forwarder/main.js`).

Conventions of the embedding:
* JavaScript byte strings that flow through base64 (the `authorization`
  header value, the configured auth token and API credentials) are
  modelled as `List Nat`, one byte value per element.
* Other strings (labels, methods, URLs, IMEIs) are Lean `String`s.
* The JavaScript numbers the handler touches (timestamps, coordinates,
  message codes) are modelled as `Int`: the handler only compares them,
  copies them verbatim and prints them.
* Effects are made explicit: `Date.now()` becomes the `now` argument, the
  outcome of the outbound `fetch` becomes a `ForwardOutcome` argument, and
  the network calls issued during a run are collected, in issue order, in
  the result.
-/

namespace GarminIpc

/-- ASCII code of the base64 alphabet character for a sextet value
(`A`-`Z`, `a`-`z`, `0`-`9`, `+`, `/`). -/
def sextetToChar (n : Nat) : Nat :=
  if n < 26 then 65 + n
  else if n < 52 then 97 + (n - 26)
  else if n < 62 then 48 + (n - 52)
  else if n = 62 then 43
  else 47

/-- Inverse of the base64 alphabet; `none` for padding and foreign bytes. -/
def charToSextet (c : Nat) : Option Nat :=
  if 65 ≤ c ∧ c ≤ 90 then some (c - 65)
  else if 97 ≤ c ∧ c ≤ 122 then some (c - 97 + 26)
  else if 48 ≤ c ∧ c ≤ 57 then some (c - 48 + 52)
  else if c = 43 then some 62
  else if c = 47 then some 63
  else none

/-- Reassemble bytes from a run of sextet values, `Buffer.from(_, "base64")`
style: a trailing group of fewer than four sextets contributes
`floor(6k/8)` bytes. -/
def decodeSextets : List Nat → List Nat
  | s1 :: s2 :: s3 :: s4 :: rest =>
    (s1 * 4 + s2 / 16) :: (s2 % 16 * 16 + s3 / 4) :: (s3 % 4 * 64 + s4) :: decodeSextets rest
  | [s1, s2, s3] => [s1 * 4 + s2 / 16, s2 % 16 * 16 + s3 / 4]
  | [s1, s2] => [s1 * 4 + s2 / 16]
  | [_] => []
  | [] => []

/-- `Buffer.from(s, "base64")`: bytes outside the alphabet (`=` padding
included) are skipped, then the sextets are reassembled into bytes. -/
def base64Decode (s : List Nat) : List Nat :=
  decodeSextets (s.filterMap charToSextet)

/-- `Buffer.prototype.toString("base64")`: standard base64, `=`-padded
(byte 61 is the code of `=`). -/
def base64Encode : List Nat → List Nat
  | [] => []
  | [b1] => [sextetToChar (b1 / 4), sextetToChar (b1 % 4 * 16), 61, 61]
  | [b1, b2] =>
    [sextetToChar (b1 / 4), sextetToChar (b1 % 4 * 16 + b2 / 16), sextetToChar (b2 % 16 * 4), 61]
  | b1 :: b2 :: b3 :: rest =>
    sextetToChar (b1 / 4) :: sextetToChar (b1 % 4 * 16 + b2 / 16) ::
      sextetToChar (b2 % 16 * 4 + b3 / 64) :: sextetToChar (b3 % 64) :: base64Encode rest

/-- `String.prototype.split(" ")` at the byte level (byte 32 is the space). -/
def splitSpace : List Nat → List (List Nat)
  | [] => [[]]
  | c :: rest =>
    if c = 32 then [] :: splitSpace rest
    else
      match splitSpace rest with
      | [] => [[c]]
      | part :: parts => (c :: part) :: parts

/-- `IPCOutboundEventPoint`: the location attached to an event. -/
structure IPCOutboundEventPoint where
  latitude : Int
  longitude : Int
  altitude : Int
  gpsFix : Int
  course : Int
  speed : Int
deriving DecidableEq, Repr

/-- `IPCOutboundEvent`: one transmission from an inReach device (fields the
handler reads). -/
structure IPCOutboundEvent where
  imei : String
  messageCode : Int
  timeStamp : Int
  point : IPCOutboundEventPoint
deriving DecidableEq, Repr

/-- The environment-sourced configuration, loaded once at process start. -/
structure Config where
  requestAuthToken : List Nat
  trackingSenderDeviceImei : String
  trackingSenderInreachAddress : String
  trackingReceiverDeviceImei : String
  garminInboundApiHost : String
  garminInboundApiUser : List Nat
  garminInboundApiPass : List Nat
  betterstackLogsHost : Option String
  betterstackLogsBearerToken : Option String
deriving DecidableEq, Repr

/-- The `http` part of a DigitalOcean web invocation event (fields the
handler reads); `authorization` is `none` when the header is absent. -/
structure WebEventHTTP where
  method : String
  authorization : Option (List Nat)
deriving DecidableEq, Repr

/-- The invocation event: `http` is `none` for non-web invocations and
`Events` is `none` when the body field is absent or not an array. -/
structure InvocationEvent where
  http : Option WebEventHTTP
  Events : Option (List IPCOutboundEvent)
deriving DecidableEq, Repr

/-- `Coordinate` part of an IPC Inbound reference point. -/
structure IPCCoordinate where
  Latitude : Int
  Longitude : Int
deriving DecidableEq, Repr

/-- `ReferencePoint` part of an IPC Inbound message. -/
structure IPCReferencePoint where
  LocationType : String
  Altitude : Int
  Speed : Int
  Course : Int
  Coordinate : IPCCoordinate
deriving DecidableEq, Repr

/-- `IPCInboundSendMessage`: the message body sent to the receiver device. -/
structure IPCInboundSendMessage where
  Recipients : List String
  Sender : String
  Timestamp : Int
  Message : String
  ReferencePoint : IPCReferencePoint
deriving DecidableEq, Repr

/-- The outbound `fetch` issued by `forwardLocationUpdate`. -/
structure ForwardRequest where
  url : String
  method : String
  authorizationHeader : List Nat
  contentType : String
  Messages : List IPCInboundSendMessage
deriving DecidableEq, Repr

/-- A record POSTed to the log sink (the fields the claims talk about). -/
structure LogRecord where
  level : String
  message : String
deriving DecidableEq, Repr

/-- One outbound network call made during an invocation. -/
inductive NetCall where
  | forward (req : ForwardRequest)
  | logPost (rec : LogRecord)
deriving DecidableEq, Repr

/-- Outcome of the outbound forward `fetch`, supplied by the environment:
a success response, a non-success response, or a thrown exception. -/
inductive ForwardOutcome where
  | ok
  | httpError (status : Nat) (body : String)
  | thrown (message : Option String)
deriving DecidableEq, Repr

/-- Result of one run of `main`: the returned status code, the outbound
network calls in issue order, and the final state of the request body's
`Events` array. -/
structure MainResult where
  statusCode : Nat
  calls : List NetCall
  eventsAfter : Option (List IPCOutboundEvent)
deriving DecidableEq, Repr

/-- `messageCodes.PositionReport`. -/
def messageCodesPositionReport : Int := 0

/-- `messageCodes.StartTrack`. -/
def messageCodesStartTrack : Int := 10

/-- `messageCodes.StopTrack`. -/
def messageCodesStopTrack : Int := 12

/-- `trackingMessageCodes`: the message codes associated with tracking. -/
def trackingMessageCodes : List Int :=
  [messageCodesPositionReport, messageCodesStartTrack, messageCodesStopTrack]

/-- `messageCodeToReceiverText`: lookup in the code-to-label record. -/
def messageCodeToReceiverText (c : Int) : Option String :=
  if c = messageCodesPositionReport then some "Location Update"
  else if c = messageCodesStartTrack then some "Tracking Started"
  else if c = messageCodesStopTrack then some "Tracking Stopped"
  else none

/-- `messageCodeToReceiverText[messageCode] || "Location Update"`. -/
def receiverTextFor (c : Int) : String :=
  (messageCodeToReceiverText c).getD "Location Update"

/-- `inboundApiAuth`: base64 of `user:pass` (byte 58 is the colon). -/
def inboundApiAuth (cfg : Config) : List Nat :=
  base64Encode (cfg.garminInboundApiUser ++ 58 :: cfg.garminInboundApiPass)

/-- ASCII bytes of the string prefix of the outbound Authorization header,
a capital B, a-s-i-c and a space. -/
def basicSpace : List Nat := [66, 97, 115, 105, 99, 32]

/-- `isAuthorizedRequest`: header present and truthy, second space-split
part present and truthy, and its base64 decoding equal to the configured
token followed by a colon. -/
def isAuthorizedRequest (cfg : Config) (event : InvocationEvent) : Bool :=
  match event.http with
  | none => false
  | some http =>
    match http.authorization with
    | none => false
    | some authorization =>
      if authorization = [] then false
      else
        match (splitSpace authorization)[1]? with
        | none => false
        | some encodedToken =>
          if encodedToken = [] then false
          else decide (base64Decode encodedToken = cfg.requestAuthToken ++ [58])

/-- `forwardLocationUpdate`: builds the IPC Inbound send-message request.
`now` is the value of `Date.now()` at the moment of the call. -/
def forwardLocationUpdate (cfg : Config) (now : Int) (text : String)
    (point : IPCOutboundEventPoint) : ForwardRequest :=
  let message : IPCInboundSendMessage :=
    { Recipients := [cfg.trackingReceiverDeviceImei]
      Sender := cfg.trackingSenderInreachAddress
      Timestamp := now
      Message := text ++ ": lat " ++ toString point.latitude ++ " lon " ++ toString point.longitude
      ReferencePoint :=
        { LocationType := "GPSLocation"
          Altitude := point.altitude
          Speed := point.speed
          Course := point.course
          Coordinate := { Latitude := point.latitude, Longitude := point.longitude } } }
  { url := "https://" ++ cfg.garminInboundApiHost ++ "/IPCInbound/V1/Messaging.svc/Message"
    method := "POST"
    authorizationHeader := basicSpace ++ inboundApiAuth cfg
    contentType := "application/json"
    Messages := [message] }

/-- Truthiness of an optional environment string: unset and empty are falsy. -/
def isTruthy : Option String → Bool
  | none => false
  | some s => decide (s ≠ "")

/-- One call to `log`: it POSTs one record to the sink when both log-sink
settings are truthy, and does nothing otherwise. -/
def logEmit (cfg : Config) (level message : String) : List NetCall :=
  if isTruthy cfg.betterstackLogsHost && isTruthy cfg.betterstackLogsBearerToken then
    [NetCall.logPost { level := level, message := message }]
  else []

/-- The comparator `(a, b) => a.timeStamp - b.timeStamp` orders events by
ascending timestamp. -/
def tsLe (a b : IPCOutboundEvent) : Prop := a.timeStamp ≤ b.timeStamp

instance : DecidableRel tsLe :=
  fun a b => inferInstanceAs (Decidable (a.timeStamp ≤ b.timeStamp))

instance : IsTotal IPCOutboundEvent tsLe :=
  ⟨fun a b => Int.le_total a.timeStamp b.timeStamp⟩

instance : IsTrans IPCOutboundEvent tsLe :=
  ⟨fun _ _ _ h1 h2 => le_trans h1 h2⟩

/-- `arr.sort((a, b) => a.timeStamp - b.timeStamp)`: ECMAScript guarantees
a stable sort, and every stable ascending sort of a list by a total key
produces the same list, so a stable insertion sort is the faithful model. -/
def sortByTimeStamp (events : List IPCOutboundEvent) : List IPCOutboundEvent :=
  events.insertionSort tsLe

/-- `copy.sort(cmp)` followed by `copy.pop()`: the array is sorted in place
and loses its last element.  First component: the popped element (the
expression's value); second component: the state of that array afterwards. -/
def jsSortPop (copy : List IPCOutboundEvent) :
    Option IPCOutboundEvent × List IPCOutboundEvent :=
  ((sortByTimeStamp copy).getLast?, (sortByTimeStamp copy).dropLast)

/-- The spread `[...arr]` denotes a fresh array holding the same list value;
everything later done to the copy leaves `arr` itself untouched. -/
def spreadCopy (events : List IPCOutboundEvent) : List IPCOutboundEvent := events

/-- `[...event.Events].sort((a, b) => a.timeStamp - b.timeStamp).pop()`. -/
def selectOutboundEvent (events : List IPCOutboundEvent) : Option IPCOutboundEvent :=
  (jsSortPop (spreadCopy events)).1

/-- `event?.http?.method`. -/
def httpMethod (event : InvocationEvent) : Option String :=
  event.http.map (fun h => h.method)

/-- Body of `main` after the authorization and shape guards, with the
event batch in hand. -/
def mainBody (cfg : Config) (events : List IPCOutboundEvent) (now : Int)
    (outcome : ForwardOutcome) : MainResult :=
  let debugCalls := logEmit cfg "debug" "IPC Outbound request received"
  match selectOutboundEvent events with
  | none => { statusCode := 200, calls := debugCalls, eventsAfter := some events }
  | some outboundEvent =>
    if outboundEvent.imei ≠ cfg.trackingSenderDeviceImei then
      { statusCode := 200, calls := debugCalls, eventsAfter := some events }
    else if ¬ outboundEvent.messageCode ∈ trackingMessageCodes then
      { statusCode := 200, calls := debugCalls, eventsAfter := some events }
    else if outboundEvent.point.latitude = 0 ∧ outboundEvent.point.longitude = 0 then
      { statusCode := 200, calls := debugCalls, eventsAfter := some events }
    else
      let req := forwardLocationUpdate cfg now
        (receiverTextFor outboundEvent.messageCode) outboundEvent.point
      let afterForward := debugCalls ++ [NetCall.forward req]
      match outcome with
      | ForwardOutcome.ok =>
        { statusCode := 200, calls := afterForward, eventsAfter := some events }
      | ForwardOutcome.httpError _ _ =>
        { statusCode := 200
          calls := afterForward ++ logEmit cfg "error" "IPC Inbound request rejected"
          eventsAfter := some events }
      | ForwardOutcome.thrown _ =>
        { statusCode := 200
          calls := afterForward ++ logEmit cfg "error" "Failed to send IPC Inbound request"
          eventsAfter := some events }

/-- `main`: the handler.  `now` is the wall clock, `outcome` the outcome
the environment gives the outbound forward `fetch`. -/
def main (cfg : Config) (event : InvocationEvent) (now : Int)
    (outcome : ForwardOutcome) : MainResult :=
  if ¬ isAuthorizedRequest cfg event then
    { statusCode := 200, calls := [], eventsAfter := event.Events }
  else if httpMethod event ≠ some "POST" ∨ event.Events = none then
    { statusCode := 200, calls := [], eventsAfter := event.Events }
  else
    match event.Events with
    | none => { statusCode := 200, calls := [], eventsAfter := none }
    | some events => mainBody cfg events now outcome

/-- Projection of the effect trace to the forward POSTs. -/
def toForward : NetCall → Option ForwardRequest
  | NetCall.forward req => some req
  | NetCall.logPost _ => none

/-- The forward POSTs issued during a run, in order. -/
def forwardCalls (r : MainResult) : List ForwardRequest :=
  r.calls.filterMap toForward

/-- Modelled from the spec: a request is authorized when the header is
present and its second space-separated part base64-decodes to exactly the
configured auth token followed by a trailing colon (byte 58). -/
def specAuthorized (cfg : Config) (event : InvocationEvent) : Prop :=
  ∃ hdr tok, event.http.bind (fun h => h.authorization) = some hdr ∧
    (splitSpace hdr)[1]? = some tok ∧ base64Decode tok = cfg.requestAuthToken ++ [58]

/-- The maximum timestamp occurring in a batch (`none` on the empty batch). -/
def maxTimeStamp : List IPCOutboundEvent → Option Int
  | [] => none
  | e :: rest =>
    match maxTimeStamp rest with
    | none => some e.timeStamp
    | some m => some (max e.timeStamp m)

/-- Modelled from the spec: among the events carrying the maximum
timestamp, the one occurring last in input order. -/
def lastMaxTimeStamp (events : List IPCOutboundEvent) : Option IPCOutboundEvent :=
  match maxTimeStamp events with
  | none => none
  | some m => (events.filter (fun e => e.timeStamp == m)).getLast?

/-- The three content filters of the handler, as one predicate. -/
def passesFilters (cfg : Config) (e : IPCOutboundEvent) : Prop :=
  e.imei = cfg.trackingSenderDeviceImei ∧
  e.messageCode ∈ trackingMessageCodes ∧
  ¬ (e.point.latitude = 0 ∧ e.point.longitude = 0)

instance (cfg : Config) (e : IPCOutboundEvent) : Decidable (passesFilters cfg e) := by
  unfold passesFilters
  infer_instance

/-! ### Concrete inputs used to instantiate the theorems below -/

/-- A concrete configuration whose log sink is configured.  Its auth token
is the single byte 84 (a capital T), so the expected header token decodes
to the two bytes 84, 58. -/
def cfgEx : Config :=
  { requestAuthToken := [84]
    trackingSenderDeviceImei := "111111111111111"
    trackingSenderInreachAddress := "sender@example.invalid"
    trackingReceiverDeviceImei := "222222222222222"
    garminInboundApiHost := "eur-origin.inreach.garmin.com"
    garminInboundApiUser := [117]
    garminInboundApiPass := [112]
    betterstackLogsHost := some "in.logs.betterstack.example"
    betterstackLogsBearerToken := some "bearer-token" }

/-- Bytes of a valid authorization header for `cfgEx`: the scheme word
Basic, a space, then the base64 encoding of the bytes 84, 58. -/
def hdrEx : List Nat := [66, 97, 115, 105, 99, 32, 86, 68, 111, 61]

/-- A concrete point at latitude 10, longitude 20. -/
def pointEx : IPCOutboundEventPoint :=
  { latitude := 10, longitude := 20, altitude := 100, gpsFix := 2, course := 3, speed := 4 }

/-- A position-report event from the configured sender that passes every
content filter of `cfgEx`. -/
def eventEarly : IPCOutboundEvent :=
  { imei := "111111111111111", messageCode := 0, timeStamp := 100, point := pointEx }

/-- A later event from a foreign device that fails the device filter. -/
def eventLate : IPCOutboundEvent :=
  { imei := "999999999999999", messageCode := 0, timeStamp := 200, point := pointEx }

/-- An authorized POST request carrying only the passing event. -/
def evEx : InvocationEvent :=
  { http := some { method := "POST", authorization := some hdrEx }
    Events := some [eventEarly] }

/-- The two-event batch: the earlier event passes the filters, the later
one fails them. -/
def eventsTwo : List IPCOutboundEvent := [eventEarly, eventLate]

/-- An authorized POST request carrying `eventsTwo`. -/
def evTwo : InvocationEvent :=
  { http := some { method := "POST", authorization := some hdrEx }
    Events := some eventsTwo }

/-- An authorized request whose method is GET. -/
def evGet : InvocationEvent :=
  { http := some { method := "GET", authorization := some hdrEx }
    Events := some [eventEarly] }

/-- An authorized POST request with an empty event batch. -/
def evEmpty : InvocationEvent :=
  { http := some { method := "POST", authorization := some hdrEx }
    Events := some [] }

/-! ### Base64 encode and decode are inverse -/

theorem charToSextet_sextetToChar :
    ∀ n : Nat, n < 64 → charToSextet (sextetToChar n) = some n := by decide

theorem charToSextet_pad : charToSextet 61 = none := by decide

theorem base64Decode_nil : base64Decode [] = [] := rfl

theorem base64Decode_base64Encode :
    ∀ bs : List Nat, (∀ b ∈ bs, b < 256) → base64Decode (base64Encode bs) = bs
  | [], _ => rfl
  | [b1], h => by
    have hb1 : b1 < 256 := h b1 (by simp)
    have h1 := charToSextet_sextetToChar (b1 / 4) (by omega)
    have h2 := charToSextet_sextetToChar (b1 % 4 * 16) (by omega)
    simp only [base64Encode, base64Decode, List.filterMap_cons, h1, h2, charToSextet_pad,
      List.filterMap_nil, decodeSextets, List.cons.injEq, and_true]
    omega
  | [b1, b2], h => by
    have hb1 : b1 < 256 := h b1 (by simp)
    have hb2 : b2 < 256 := h b2 (by simp)
    have h1 := charToSextet_sextetToChar (b1 / 4) (by omega)
    have h2 := charToSextet_sextetToChar (b1 % 4 * 16 + b2 / 16) (by omega)
    have h3 := charToSextet_sextetToChar (b2 % 16 * 4) (by omega)
    simp only [base64Encode, base64Decode, List.filterMap_cons, h1, h2, h3, charToSextet_pad,
      List.filterMap_nil, decodeSextets, List.cons.injEq, and_true]
    omega
  | b1 :: b2 :: b3 :: rest, h => by
    have hb1 : b1 < 256 := h b1 (by simp)
    have hb2 : b2 < 256 := h b2 (by simp)
    have hb3 : b3 < 256 := h b3 (by simp)
    have ih := base64Decode_base64Encode rest (fun b hb => h b (by simp [hb]))
    have h1 := charToSextet_sextetToChar (b1 / 4) (by omega)
    have h2 := charToSextet_sextetToChar (b1 % 4 * 16 + b2 / 16) (by omega)
    have h3 := charToSextet_sextetToChar (b2 % 16 * 4 + b3 / 64) (by omega)
    have h4 := charToSextet_sextetToChar (b3 % 64) (by omega)
    unfold base64Decode at ih
    simp only [base64Encode, base64Decode, List.filterMap_cons, h1, h2, h3, h4,
      decodeSextets, ih, List.cons.injEq]
    refine ⟨by omega, by omega, by omega, trivial⟩

/-- C7: the Authorization header of every outbound forward POST is the
Basic prefix followed by `inboundApiAuth`, and that base64 string decodes
back to exactly the configured user, a colon (byte 58), and the configured
password. -/
theorem outbound_basic_auth (cfg : Config) (now : Int) (text : String)
    (point : IPCOutboundEventPoint)
    (hu : ∀ b ∈ cfg.garminInboundApiUser, b < 256)
    (hp : ∀ b ∈ cfg.garminInboundApiPass, b < 256) :
    (forwardLocationUpdate cfg now text point).authorizationHeader =
      basicSpace ++ inboundApiAuth cfg ∧
    base64Decode (inboundApiAuth cfg) =
      cfg.garminInboundApiUser ++ 58 :: cfg.garminInboundApiPass := by
  refine ⟨rfl, ?_⟩
  unfold inboundApiAuth
  refine base64Decode_base64Encode _ ?_
  intro b hb
  rcases List.mem_append.mp hb with h | h
  · exact hu b h
  · rcases List.mem_cons.mp h with h58 | h
    · omega
    · exact hp b h

/-- Witness for `outbound_basic_auth` at the concrete configuration. -/
theorem outbound_basic_auth_witness :
    (forwardLocationUpdate cfgEx 1000 "Location Update" pointEx).authorizationHeader =
      basicSpace ++ inboundApiAuth cfgEx ∧
    base64Decode (inboundApiAuth cfgEx) =
      cfgEx.garminInboundApiUser ++ 58 :: cfgEx.garminInboundApiPass :=
  outbound_basic_auth cfgEx 1000 "Location Update" pointEx (by decide) (by decide)

/-! ### Splitting the authorization header -/

theorem splitSpace_no_space : ∀ l : List Nat, 32 ∉ l → splitSpace l = [l]
  | [], _ => rfl
  | c :: rest, h => by
    have hc : c ≠ 32 := fun hc => h (hc ▸ List.mem_cons_self c rest)
    have ih := splitSpace_no_space rest (fun hm => h (List.mem_cons_of_mem c hm))
    simp only [splitSpace, if_neg hc, ih]

theorem splitSpace_append (pre : List Nat) (rest : List Nat) (h : 32 ∉ pre) :
    splitSpace (pre ++ 32 :: rest) = pre :: splitSpace rest := by
  induction pre with
  | nil => simp [splitSpace]
  | cons c pre ih =>
    have hc : c ≠ 32 := fun hc => h (hc ▸ List.mem_cons_self c pre)
    have ihh := ih (fun hm => h (List.mem_cons_of_mem c hm))
    show (if c = 32 then [] :: splitSpace (pre ++ 32 :: rest)
          else
            match splitSpace (pre ++ 32 :: rest) with
            | [] => [[c]]
            | part :: parts => (c :: part) :: parts) = (c :: pre) :: splitSpace rest
    rw [if_neg hc, ihh]

/-- C2: the request is authorized exactly when the header is present and
its second space-separated part decodes to the configured token plus a
trailing colon; every unauthorized request gets the no-op 200 result with
no outbound call of any kind. -/
theorem authorization_exact (cfg : Config) (ev : InvocationEvent) :
    (isAuthorizedRequest cfg ev = true ↔ specAuthorized cfg ev) ∧
    (isAuthorizedRequest cfg ev = false → ∀ (now : Int) (outcome : ForwardOutcome),
      (main cfg ev now outcome).statusCode = 200 ∧ (main cfg ev now outcome).calls = []) := by
  constructor
  · obtain ⟨ohttp, oevents⟩ := ev
    cases ohttp with
    | none => simp [isAuthorizedRequest, specAuthorized]
    | some http =>
      obtain ⟨method, oauth⟩ := http
      cases oauth with
      | none => simp [isAuthorizedRequest, specAuthorized]
      | some hdr =>
        have hspec : specAuthorized cfg
            { http := some { method := method, authorization := some hdr }
              Events := oevents } ↔
            ∃ tok, (splitSpace hdr)[1]? = some tok ∧
              base64Decode tok = cfg.requestAuthToken ++ [58] := by
          simp [specAuthorized]
        rw [hspec]
        simp only [isAuthorizedRequest]
        by_cases hnil : hdr = []
        · subst hnil
          rw [if_pos rfl]
          simp [splitSpace]
        · rw [if_neg hnil]
          cases htok : (splitSpace hdr)[1]? with
          | none => simp
          | some tok =>
            dsimp only
            by_cases htnil : tok = []
            · subst htnil
              rw [if_pos rfl]
              simp [base64Decode_nil]
            · rw [if_neg htnil]
              simp
  · intro hf now outcome
    constructor <;> simp [main, hf]

/-- C10: the scheme word of the authorization header is never examined:
any header of shape scheme, space, token (with any further space-separated
parts, which are ignored) is accepted whenever the token decodes to the
configured token plus a colon, whatever the scheme word is. -/
theorem scheme_not_examined (cfg : Config) (method : String)
    (oevents : Option (List IPCOutboundEvent)) (s tok r : List Nat)
    (hs : s ≠ []) (hsp : 32 ∉ s) (htp : 32 ∉ tok)
    (hr : r = [] ∨ ∃ r2, r = 32 :: r2)
    (hdec : base64Decode tok = cfg.requestAuthToken ++ [58]) :
    isAuthorizedRequest cfg
      { http := some { method := method, authorization := some (s ++ 32 :: (tok ++ r)) }
        Events := oevents } = true := by
  have hne : tok ≠ [] := by
    intro h0
    rw [h0, base64Decode_nil] at hdec
    exact absurd hdec.symm (by simp)
  have hhdr : s ++ 32 :: (tok ++ r) ≠ [] := by simp
  have hsplit : splitSpace (s ++ 32 :: (tok ++ r)) = s :: splitSpace (tok ++ r) :=
    splitSpace_append s _ hsp
  have hhead : (splitSpace (tok ++ r))[0]? = some tok := by
    rcases hr with rfl | ⟨r2, rfl⟩
    · rw [List.append_nil, splitSpace_no_space tok htp]
      simp
    · rw [splitSpace_append tok r2 htp]
      simp
  simp only [isAuthorizedRequest]
  rw [if_neg hhdr, hsplit]
  simp only [List.getElem?_cons_succ, hhead]
  rw [if_neg hne]
  simp [hdec]

/-- Witness for `scheme_not_examined`: a Bearer-scheme header is accepted. -/
theorem scheme_not_examined_witness :
    isAuthorizedRequest cfgEx
      { http := some
          { method := "POST"
            authorization := some ([66, 101, 97, 114, 101, 114] ++ 32 :: ([86, 68, 111, 61] ++ [])) }
        Events := some [] } = true :=
  scheme_not_examined cfgEx "POST" (some []) [66, 101, 97, 114, 101, 114] [86, 68, 111, 61] []
    (by decide) (by decide) (by decide) (Or.inl rfl) (by decide)

/-! ### The selected event is the last one carrying the maximum timestamp -/

theorem selectOutboundEvent_eq_getLast? (events : List IPCOutboundEvent) :
    selectOutboundEvent events = (sortByTimeStamp events).getLast? := rfl

theorem sortByTimeStamp_cons (a : IPCOutboundEvent) (l : List IPCOutboundEvent) :
    sortByTimeStamp (a :: l) = List.orderedInsert tsLe a (sortByTimeStamp l) := rfl

theorem orderedInsert_cons_eq (e x : IPCOutboundEvent) (xs : List IPCOutboundEvent) :
    List.orderedInsert tsLe e (x :: xs) =
      if tsLe e x then e :: x :: xs else x :: List.orderedInsert tsLe e xs := rfl

theorem orderedInsert_ne_nil (e : IPCOutboundEvent) (l : List IPCOutboundEvent) :
    List.orderedInsert tsLe e l ≠ [] := by
  cases l with
  | nil => simp [List.orderedInsert]
  | cons x xs =>
    rw [orderedInsert_cons_eq]
    split <;> simp

theorem getLast?_cons_of_ne_nil (x : IPCOutboundEvent) {l : List IPCOutboundEvent}
    (h : l ≠ []) : (x :: l).getLast? = l.getLast? := by
  cases l with
  | nil => exact absurd rfl h
  | cons y ys => exact List.getLast?_cons_cons

theorem getLast?_orderedInsert (e : IPCOutboundEvent) :
    ∀ l : List IPCOutboundEvent, List.Sorted tsLe l →
      (List.orderedInsert tsLe e l).getLast? =
        some (match l.getLast? with
              | none => e
              | some m => if e.timeStamp ≤ m.timeStamp then m else e)
  | [], _ => by simp [List.orderedInsert]
  | x :: xs, hs => by
    rw [orderedInsert_cons_eq]
    by_cases hex : tsLe e x
    · rw [if_pos hex]
      cases hm : (x :: xs).getLast? with
      | none => simp at hm
      | some m =>
        have hmem : m ∈ x :: xs := List.mem_of_getLast?_eq_some hm
        have hxm : tsLe x m := by
          rcases List.mem_cons.mp hmem with rfl | hmx
          · exact le_refl m.timeStamp
          · exact List.rel_of_sorted_cons hs m hmx
        have hem : e.timeStamp ≤ m.timeStamp := le_trans hex hxm
        rw [getLast?_cons_of_ne_nil e (List.cons_ne_nil x xs), hm]
        dsimp only
        rw [if_pos hem]
    · rw [if_neg hex]
      have hxs : List.Sorted tsLe xs := (List.sorted_cons.mp hs).2
      rw [getLast?_cons_of_ne_nil x (orderedInsert_ne_nil e xs),
        getLast?_orderedInsert e xs hxs]
      cases hxsl : xs.getLast? with
      | none =>
        have hx0 : xs = [] := List.getLast?_eq_none_iff.mp hxsl
        subst hx0
        have hex' : ¬ e.timeStamp ≤ x.timeStamp := hex
        simp [hex']
      | some m =>
        have hxsne : xs ≠ [] := by
          intro h0
          rw [h0] at hxsl
          simp at hxsl
        rw [getLast?_cons_of_ne_nil x hxsne, hxsl]

theorem maxTimeStamp_eq_none {l : List IPCOutboundEvent} (h : maxTimeStamp l = none) :
    l = [] := by
  cases l with
  | nil => rfl
  | cons a rest =>
    unfold maxTimeStamp at h
    cases hr : maxTimeStamp rest <;> rw [hr] at h <;> simp at h

theorem le_maxTimeStamp : ∀ {l : List IPCOutboundEvent} {m : Int},
    maxTimeStamp l = some m → ∀ e ∈ l, e.timeStamp ≤ m
  | [], m, h => by simp [maxTimeStamp] at h
  | a :: rest, m, h => by
    intro e he
    unfold maxTimeStamp at h
    cases hr : maxTimeStamp rest with
    | none =>
      rw [hr] at h
      simp only [Option.some.injEq] at h
      have h0 : rest = [] := maxTimeStamp_eq_none hr
      subst h0
      rcases List.mem_cons.mp he with rfl | h1
      · omega
      · simp at h1
    | some m0 =>
      rw [hr] at h
      simp only [Option.some.injEq] at h
      rcases List.mem_cons.mp he with rfl | h1
      · have := le_max_left e.timeStamp m0
        omega
      · have h2 := le_maxTimeStamp hr e h1
        have := le_max_right a.timeStamp m0
        omega

theorem exists_maxTimeStamp : ∀ {l : List IPCOutboundEvent} {m : Int},
    maxTimeStamp l = some m → ∃ e ∈ l, e.timeStamp = m
  | [], m, h => by simp [maxTimeStamp] at h
  | a :: rest, m, h => by
    unfold maxTimeStamp at h
    cases hr : maxTimeStamp rest with
    | none =>
      rw [hr] at h
      simp only [Option.some.injEq] at h
      exact ⟨a, List.mem_cons_self a rest, h⟩
    | some m0 =>
      rw [hr] at h
      simp only [Option.some.injEq] at h
      rcases max_choice a.timeStamp m0 with hmc | hmc
      · exact ⟨a, List.mem_cons_self a rest, by omega⟩
      · obtain ⟨e, he, hem⟩ := exists_maxTimeStamp hr
        exact ⟨e, List.mem_cons_of_mem a he, by omega⟩

theorem lastMaxTimeStamp_cons (a : IPCOutboundEvent) (rest : List IPCOutboundEvent) :
    lastMaxTimeStamp (a :: rest) =
      some (match lastMaxTimeStamp rest with
            | none => a
            | some m => if a.timeStamp ≤ m.timeStamp then m else a) := by
  unfold lastMaxTimeStamp
  cases hr : maxTimeStamp rest with
  | none =>
    have h0 : rest = [] := maxTimeStamp_eq_none hr
    subst h0
    simp [maxTimeStamp, List.filter]
  | some M =>
    have hmax : maxTimeStamp (a :: rest) = some (max a.timeStamp M) := by
      unfold maxTimeStamp
      rw [hr]
    rw [hmax]
    dsimp only
    obtain ⟨x, hx, hxm⟩ := exists_maxTimeStamp hr
    have hfne : rest.filter (fun e => e.timeStamp == M) ≠ [] :=
      List.ne_nil_of_mem (List.mem_filter.mpr ⟨hx, by simp [hxm]⟩)
    cases hm0 : (rest.filter (fun e => e.timeStamp == M)).getLast? with
    | none => exact absurd (List.getLast?_eq_none_iff.mp hm0) hfne
    | some m0 =>
      have hm0mem := List.mem_of_getLast?_eq_some hm0
      have hm0M : m0.timeStamp = M := by
        have := (List.mem_filter.mp hm0mem).2
        simpa using this
      dsimp only
      by_cases ham : a.timeStamp ≤ M
      · rw [max_eq_right ham]
        have hif : ((a :: rest).filter (fun e => e.timeStamp == M)).getLast? = some m0 := by
          rw [List.filter_cons]
          split
          · rw [getLast?_cons_of_ne_nil a hfne]
            exact hm0
          · exact hm0
        rw [hif, if_pos (by omega : a.timeStamp ≤ m0.timeStamp)]
      · rw [max_eq_left (by omega : M ≤ a.timeStamp)]
        have hfilnil : rest.filter (fun e => e.timeStamp == a.timeStamp) = [] := by
          rw [List.filter_eq_nil_iff]
          intro e he
          have := le_maxTimeStamp hr e he
          simp
          omega
        rw [List.filter_cons, if_pos (by simp), hfilnil,
          if_neg (by omega : ¬ a.timeStamp ≤ m0.timeStamp)]
        simp

theorem select_eq_lastMax : ∀ events : List IPCOutboundEvent,
    selectOutboundEvent events = lastMaxTimeStamp events
  | [] => rfl
  | a :: rest => by
    rw [selectOutboundEvent_eq_getLast?, sortByTimeStamp_cons,
      getLast?_orderedInsert a (sortByTimeStamp rest) (List.sorted_insertionSort tsLe rest),
      ← selectOutboundEvent_eq_getLast?, select_eq_lastMax rest, lastMaxTimeStamp_cons]

/-! ### Evaluation lemmas for the handler -/

theorem statusCode_mainBody (cfg : Config) (events : List IPCOutboundEvent) (now : Int)
    (outcome : ForwardOutcome) : (mainBody cfg events now outcome).statusCode = 200 := by
  unfold mainBody
  cases selectOutboundEvent events with
  | none => rfl
  | some e =>
    dsimp only
    cases outcome <;> split_ifs <;> rfl

theorem eventsAfter_mainBody (cfg : Config) (events : List IPCOutboundEvent) (now : Int)
    (outcome : ForwardOutcome) : (mainBody cfg events now outcome).eventsAfter = some events := by
  unfold mainBody
  cases selectOutboundEvent events with
  | none => rfl
  | some e =>
    dsimp only
    cases outcome <;> split_ifs <;> rfl

theorem main_eq_mainBody (cfg : Config) (ev : InvocationEvent) (now : Int)
    (outcome : ForwardOutcome) (events : List IPCOutboundEvent)
    (hauth : isAuthorizedRequest cfg ev = true)
    (hpost : httpMethod ev = some "POST")
    (hev : ev.Events = some events) :
    main cfg ev now outcome = mainBody cfg events now outcome := by
  unfold main
  rw [if_neg (by simp [hauth]), if_neg (by simp [hpost, hev]), hev]

/-- C1: the handler returns status code 200 on every input, whatever the
method, headers, body and forward outcome (non-success response or thrown
exception included). -/
theorem main_always_200 (cfg : Config) (ev : InvocationEvent) (now : Int)
    (outcome : ForwardOutcome) : (main cfg ev now outcome).statusCode = 200 := by
  unfold main
  split_ifs <;>
    first
      | rfl
      | (cases hev : ev.Events with
          | none => rfl
          | some events => exact statusCode_mainBody cfg events now outcome)

/-- C9: the handler never mutates the request's `Events` array: the
selection step sorts the spread copy `spreadCopy events` (see `mainBody`
and `jsSortPop`), and the array reaching the end of the run is the input
array unchanged, elements and order included. -/
theorem main_events_unchanged (cfg : Config) (ev : InvocationEvent) (now : Int)
    (outcome : ForwardOutcome) : (main cfg ev now outcome).eventsAfter = ev.Events := by
  unfold main
  split_ifs <;>
    first
      | rfl
      | (cases hev : ev.Events with
          | none => rfl
          | some events => exact eventsAfter_mainBody cfg events now outcome)

/-! ### The forward calls a run issues -/

theorem filterMap_toForward_logEmit (cfg : Config) (lvl msg : String) :
    (logEmit cfg lvl msg).filterMap toForward = [] := by
  unfold logEmit
  split <;> rfl

theorem forwardCalls_mainBody (cfg : Config) (events : List IPCOutboundEvent) (now : Int)
    (outcome : ForwardOutcome) :
    forwardCalls (mainBody cfg events now outcome) =
      (match selectOutboundEvent events with
       | none => []
       | some e =>
         if passesFilters cfg e then
           [forwardLocationUpdate cfg now (receiverTextFor e.messageCode) e.point]
         else []) := by
  unfold mainBody
  cases hsel : selectOutboundEvent events with
  | none => simp [forwardCalls, filterMap_toForward_logEmit]
  | some e =>
    dsimp only
    by_cases h1 : e.imei = cfg.trackingSenderDeviceImei
    · by_cases h2 : e.messageCode ∈ trackingMessageCodes
      · by_cases h3 : e.point.latitude = 0 ∧ e.point.longitude = 0
        · have hp : ¬ passesFilters cfg e := fun hc => hc.2.2 h3
          cases outcome <;>
            simp [h1, h2, h3, hp, forwardCalls, filterMap_toForward_logEmit]
        · have hp : passesFilters cfg e := ⟨h1, h2, h3⟩
          cases outcome <;>
            simp [h1, h2, h3, hp, forwardCalls, List.filterMap_append,
              filterMap_toForward_logEmit, toForward]
      · have hp : ¬ passesFilters cfg e := fun hc => h2 hc.2.1
        cases outcome <;> simp [h1, h2, hp, forwardCalls, filterMap_toForward_logEmit]
    · have hp : ¬ passesFilters cfg e := fun hc => h1 hc.1
      cases outcome <;> simp [h1, hp, forwardCalls, filterMap_toForward_logEmit]

/-- C3: the selected event is the one the spec describes, the one carrying
the maximum timestamp and, among ties, occurring last in input order; an
empty batch is a no-op 200 without forward call; and the forward decision
is a function of that selected event alone, so a later-timestamped failing
event masks an earlier passing one. -/
theorem selection_last_max (cfg : Config) (ev : InvocationEvent) (now : Int)
    (outcome : ForwardOutcome) (events : List IPCOutboundEvent)
    (hauth : isAuthorizedRequest cfg ev = true)
    (hpost : httpMethod ev = some "POST")
    (hev : ev.Events = some events) :
    selectOutboundEvent events = lastMaxTimeStamp events ∧
    (events = [] → (main cfg ev now outcome).statusCode = 200 ∧
      forwardCalls (main cfg ev now outcome) = []) ∧
    forwardCalls (main cfg ev now outcome) =
      (match lastMaxTimeStamp events with
       | none => []
       | some e =>
         if passesFilters cfg e then
           [forwardLocationUpdate cfg now (receiverTextFor e.messageCode) e.point]
         else []) := by
  have hmain := main_eq_mainBody cfg ev now outcome events hauth hpost hev
  have hfc : forwardCalls (main cfg ev now outcome) =
      (match lastMaxTimeStamp events with
       | none => []
       | some e =>
         if passesFilters cfg e then
           [forwardLocationUpdate cfg now (receiverTextFor e.messageCode) e.point]
         else []) := by
    rw [hmain, forwardCalls_mainBody, select_eq_lastMax]
  refine ⟨select_eq_lastMax events, ?_, hfc⟩
  intro h0
  subst h0
  refine ⟨by rw [hmain]; exact statusCode_mainBody cfg [] now outcome, ?_⟩
  rw [hfc]
  rfl

/-- Witness for `selection_last_max`: in the two-event batch the later,
filter-failing event is selected, so no forward call happens even though
the earlier event would have passed. -/
theorem selection_last_max_witness :
    selectOutboundEvent eventsTwo = lastMaxTimeStamp eventsTwo ∧
    (eventsTwo = [] → (main cfgEx evTwo 1000 ForwardOutcome.ok).statusCode = 200 ∧
      forwardCalls (main cfgEx evTwo 1000 ForwardOutcome.ok) = []) ∧
    forwardCalls (main cfgEx evTwo 1000 ForwardOutcome.ok) =
      (match lastMaxTimeStamp eventsTwo with
       | none => []
       | some e =>
         if passesFilters cfgEx e then
           [forwardLocationUpdate cfgEx 1000 (receiverTextFor e.messageCode) e.point]
         else []) :=
  selection_last_max cfgEx evTwo 1000 ForwardOutcome.ok eventsTwo (by decide) rfl rfl

/-- C4: for an authorized well-shaped request with a selected event, the
forward POST is attempted exactly when the selected event is from the
configured sender device, carries a tracking message code, and does not sit
at the zero-zero sentinel point; otherwise the run is a 200 no-op. -/
theorem content_filters_decide_forward (cfg : Config) (ev : InvocationEvent) (now : Int)
    (outcome : ForwardOutcome) (events : List IPCOutboundEvent) (e : IPCOutboundEvent)
    (hauth : isAuthorizedRequest cfg ev = true)
    (hpost : httpMethod ev = some "POST")
    (hev : ev.Events = some events)
    (hsel : selectOutboundEvent events = some e) :
    (forwardCalls (main cfg ev now outcome) ≠ [] ↔
      (e.imei = cfg.trackingSenderDeviceImei ∧
       e.messageCode ∈ trackingMessageCodes ∧
       ¬ (e.point.latitude = 0 ∧ e.point.longitude = 0))) ∧
    (¬ passesFilters cfg e →
      (main cfg ev now outcome).statusCode = 200 ∧
      forwardCalls (main cfg ev now outcome) = []) := by
  have hmain := main_eq_mainBody cfg ev now outcome events hauth hpost hev
  have hfc : forwardCalls (main cfg ev now outcome) =
      if passesFilters cfg e then
        [forwardLocationUpdate cfg now (receiverTextFor e.messageCode) e.point]
      else [] := by
    rw [hmain, forwardCalls_mainBody, hsel]
  constructor
  · rw [hfc]
    by_cases hp : passesFilters cfg e
    · rw [if_pos hp]
      exact iff_of_true (by simp) hp
    · rw [if_neg hp]
      exact iff_of_false (by simp) hp
  · intro hp
    rw [hfc, if_neg hp]
    exact ⟨by rw [hmain]; exact statusCode_mainBody cfg events now outcome, rfl⟩

/-- Witness for `content_filters_decide_forward`: the selected event of the
two-event batch comes from a foreign device, so no forward is attempted. -/
theorem content_filters_decide_forward_witness :
    (forwardCalls (main cfgEx evTwo 1000 ForwardOutcome.ok) ≠ [] ↔
      (eventLate.imei = cfgEx.trackingSenderDeviceImei ∧
       eventLate.messageCode ∈ trackingMessageCodes ∧
       ¬ (eventLate.point.latitude = 0 ∧ eventLate.point.longitude = 0))) ∧
    (¬ passesFilters cfgEx eventLate →
      (main cfgEx evTwo 1000 ForwardOutcome.ok).statusCode = 200 ∧
      forwardCalls (main cfgEx evTwo 1000 ForwardOutcome.ok) = []) :=
  content_filters_decide_forward cfgEx evTwo 1000 ForwardOutcome.ok eventsTwo eventLate
    (by decide) rfl rfl (by decide)

/-- C5: an event passing all filters produces exactly one forward POST,
whose message has the configured receiver as only recipient, the configured
sender address, the labelled coordinate text, the GPSLocation reference
point copied verbatim from the event point, and the wall clock (not the
event timestamp) as Timestamp; the label map sends the position-report,
start-track and stop-track codes to their labels and everything else to the
Location Update fallback. -/
theorem forward_message_payload (cfg : Config) (ev : InvocationEvent) (now : Int)
    (outcome : ForwardOutcome) (events : List IPCOutboundEvent) (e : IPCOutboundEvent)
    (hauth : isAuthorizedRequest cfg ev = true)
    (hpost : httpMethod ev = some "POST")
    (hev : ev.Events = some events)
    (hsel : selectOutboundEvent events = some e)
    (hpass : passesFilters cfg e) :
    forwardCalls (main cfg ev now outcome) =
      [forwardLocationUpdate cfg now (receiverTextFor e.messageCode) e.point] ∧
    (forwardLocationUpdate cfg now (receiverTextFor e.messageCode) e.point).Messages =
      [{ Recipients := [cfg.trackingReceiverDeviceImei]
         Sender := cfg.trackingSenderInreachAddress
         Timestamp := now
         Message := receiverTextFor e.messageCode ++ ": lat " ++ toString e.point.latitude ++
           " lon " ++ toString e.point.longitude
         ReferencePoint :=
           { LocationType := "GPSLocation"
             Altitude := e.point.altitude
             Speed := e.point.speed
             Course := e.point.course
             Coordinate := { Latitude := e.point.latitude
                             Longitude := e.point.longitude } } }] ∧
    receiverTextFor messageCodesPositionReport = "Location Update" ∧
    receiverTextFor messageCodesStartTrack = "Tracking Started" ∧
    receiverTextFor messageCodesStopTrack = "Tracking Stopped" ∧
    ∀ c : Int, c ∉ trackingMessageCodes → receiverTextFor c = "Location Update" := by
  have hmain := main_eq_mainBody cfg ev now outcome events hauth hpost hev
  refine ⟨?_, rfl, rfl, rfl, rfl, ?_⟩
  · rw [hmain, forwardCalls_mainBody, hsel]
    dsimp only
    rw [if_pos hpass]
  · intro c hc
    simp only [trackingMessageCodes, messageCodesPositionReport, messageCodesStartTrack,
      messageCodesStopTrack, List.mem_cons, List.not_mem_nil, or_false, not_or] at hc
    simp only [receiverTextFor, messageCodeToReceiverText, messageCodesPositionReport,
      messageCodesStartTrack, messageCodesStopTrack]
    rw [if_neg hc.1, if_neg hc.2.1, if_neg hc.2.2]
    rfl

/-- Witness for `forward_message_payload` at the single-event batch whose
event passes every filter. -/
theorem forward_message_payload_witness :
    forwardCalls (main cfgEx evEx 1000 ForwardOutcome.ok) =
      [forwardLocationUpdate cfgEx 1000 (receiverTextFor eventEarly.messageCode)
        eventEarly.point] ∧
    (forwardLocationUpdate cfgEx 1000 (receiverTextFor eventEarly.messageCode)
        eventEarly.point).Messages =
      [{ Recipients := [cfgEx.trackingReceiverDeviceImei]
         Sender := cfgEx.trackingSenderInreachAddress
         Timestamp := 1000
         Message := receiverTextFor eventEarly.messageCode ++ ": lat " ++
           toString eventEarly.point.latitude ++ " lon " ++ toString eventEarly.point.longitude
         ReferencePoint :=
           { LocationType := "GPSLocation"
             Altitude := eventEarly.point.altitude
             Speed := eventEarly.point.speed
             Course := eventEarly.point.course
             Coordinate := { Latitude := eventEarly.point.latitude
                             Longitude := eventEarly.point.longitude } } }] ∧
    receiverTextFor messageCodesPositionReport = "Location Update" ∧
    receiverTextFor messageCodesStartTrack = "Tracking Started" ∧
    receiverTextFor messageCodesStopTrack = "Tracking Stopped" ∧
    ∀ c : Int, c ∉ trackingMessageCodes → receiverTextFor c = "Location Update" :=
  forward_message_payload cfgEx evEx 1000 ForwardOutcome.ok [eventEarly] eventEarly
    (by decide) rfl rfl (by decide) (by decide)

/-- C6: an authorized request fails the shape guard when the method is not
POST or the body's Events field is absent or not an array, giving a 200
with no outbound call at all; an empty Events array passes the guard (the
debug log is the only activity) and ends in the empty-batch no-op. -/
theorem shape_guard (cfg : Config) (ev : InvocationEvent) (now : Int)
    (outcome : ForwardOutcome)
    (hauth : isAuthorizedRequest cfg ev = true) :
    ((httpMethod ev ≠ some "POST" ∨ ev.Events = none) →
      (main cfg ev now outcome).statusCode = 200 ∧ (main cfg ev now outcome).calls = []) ∧
    (httpMethod ev = some "POST" → ev.Events = some [] →
      (main cfg ev now outcome).statusCode = 200 ∧
      forwardCalls (main cfg ev now outcome) = [] ∧
      (main cfg ev now outcome).calls = logEmit cfg "debug" "IPC Outbound request received") := by
  constructor
  · intro hbad
    have hm : main cfg ev now outcome =
        { statusCode := 200, calls := [], eventsAfter := ev.Events } := by
      unfold main
      rw [if_neg (by simp [hauth]), if_pos hbad]
    rw [hm]
    exact ⟨rfl, rfl⟩
  · intro hpost hev
    have hmain := main_eq_mainBody cfg ev now outcome [] hauth hpost hev
    rw [hmain]
    refine ⟨statusCode_mainBody cfg [] now outcome, ?_, rfl⟩
    rw [forwardCalls_mainBody]
    rfl

/-- Witness for `shape_guard` at the authorized empty-batch POST request. -/
theorem shape_guard_witness :
    ((httpMethod evEmpty ≠ some "POST" ∨ evEmpty.Events = none) →
      (main cfgEx evEmpty 1000 ForwardOutcome.ok).statusCode = 200 ∧
      (main cfgEx evEmpty 1000 ForwardOutcome.ok).calls = []) ∧
    (httpMethod evEmpty = some "POST" → evEmpty.Events = some [] →
      (main cfgEx evEmpty 1000 ForwardOutcome.ok).statusCode = 200 ∧
      forwardCalls (main cfgEx evEmpty 1000 ForwardOutcome.ok) = [] ∧
      (main cfgEx evEmpty 1000 ForwardOutcome.ok).calls =
        logEmit cfgEx "debug" "IPC Outbound request received") :=
  shape_guard cfgEx evEmpty 1000 ForwardOutcome.ok (by decide)

/-! ### How many outbound calls one invocation makes -/

theorem logEmit_length (cfg : Config) (lvl msg : String) :
    (logEmit cfg lvl msg).length ≤ 1 := by
  unfold logEmit
  split <;> simp

theorem calls_mainBody_length (cfg : Config) (events : List IPCOutboundEvent) (now : Int)
    (outcome : ForwardOutcome) : (mainBody cfg events now outcome).calls.length ≤ 3 := by
  have h1 := logEmit_length cfg "debug" "IPC Outbound request received"
  have h2 := logEmit_length cfg "error" "IPC Inbound request rejected"
  have h3 := logEmit_length cfg "error" "Failed to send IPC Inbound request"
  unfold mainBody
  cases selectOutboundEvent events with
  | none =>
    dsimp only
    omega
  | some e =>
    dsimp only
    cases outcome <;> split_ifs <;>
      simp only [List.length_append, List.length_cons, List.length_nil] <;> omega

theorem forwardCalls_main_length (cfg : Config) (ev : InvocationEvent) (now : Int)
    (outcome : ForwardOutcome) : (forwardCalls (main cfg ev now outcome)).length ≤ 1 := by
  unfold main
  split_ifs <;>
    first
      | (simp [forwardCalls]; done)
      | (cases hev : ev.Events with
          | none => simp [forwardCalls]
          | some events =>
            rw [forwardCalls_mainBody]
            cases selectOutboundEvent events with
            | none => simp
            | some e =>
              dsimp only
              split <;> simp)

/-- C8 amended: one invocation issues at most three outbound network calls
in total (the optional debug log POST, at most one forward POST, and the
optional error log POST), recorded sequentially in issue order in the
trace, never concurrently. -/
theorem at_most_three_outbound_calls (cfg : Config) (ev : InvocationEvent) (now : Int)
    (outcome : ForwardOutcome) :
    (main cfg ev now outcome).calls.length ≤ 3 ∧
    (forwardCalls (main cfg ev now outcome)).length ≤ 1 := by
  constructor
  · unfold main
    split_ifs <;>
      first
        | (simp; done)
        | (cases hev : ev.Events with
            | none => simp
            | some events => exact calls_mainBody_length cfg events now outcome)
  · exact forwardCalls_main_length cfg ev now outcome

/-- C8 counterexample: with the log sink configured and the forward POST
rejected, one invocation issues three outbound calls, so at most two is
false. -/
theorem three_outbound_calls_example :
    (main cfgEx evEx 1000 (ForwardOutcome.httpError 500 "server error")).calls.length = 3 ∧
    ¬ ((main cfgEx evEx 1000 (ForwardOutcome.httpError 500 "server error")).calls.length ≤ 2) := by
  constructor
  · decide
  · decide

end GarminIpc
